import Mathlib

/-!
# Node codec of the kd-tree (`src/kdtree.h`, `KdTree::Node`)

A node is two unsigned 32-bit words.  The words are modelled as natural
numbers, every C++ operation that can wrap is written with an explicit
`% 2^32`, and the conversions between `int32_t` and `uint32_t` are the two
functions `toU32` and `toI32`.  An `assert` that fails is the result `none`.
A `float` is carried as its IEEE-754 bit pattern: the codec only ever
reinterprets it, it never computes with it.
-/

namespace KdTree

/-- The conversion `static_cast<uint32_t>(i)` of a signed integer: reduction modulo `2^32`. -/
def toU32 (i : Int) : Nat := (i % 4294967296).toNat

/-- The conversion `static_cast<int32_t>(w)` of an unsigned 32-bit word (two's complement). -/
def toI32 (w : Nat) : Int :=
  if w % 4294967296 < 2147483648 then (w % 4294967296 : Nat) else ((w % 4294967296 : Nat) : Int) - 4294967296

/-- The values of the type `int32_t` (and of `int` on the platforms the program targets). -/
def isInt32 (i : Int) : Prop := -2147483648 ≤ i ∧ i < 2147483648

instance (i : Int) : Decidable (isInt32 i) := by
  unfold isInt32
  exact inferInstance

/-- A `float`, carried as its 32-bit IEEE-754 pattern. -/
structure F32 where
  bits : Nat
deriving DecidableEq

/-- The record `KdTree::Node`: the two words `word0` and `word1`. -/
structure Node where
  word0 : Nat
  word1 : Nat
deriving DecidableEq

namespace Node

/-- Both fields hold a value of the type `uint32_t`. -/
def wf (n : Node) : Prop := n.word0 < 4294967296 ∧ n.word1 < 4294967296

instance (n : Node) : Decidable n.wf := by
  unfold wf
  exact inferInstance

/-- The enumerator `maxNodesCount = 0x40000000` of type `int32_t`. -/
def maxNodesCount : Int := 0x40000000

/-- The enumerator `leafNodeFlags = 3` of type `uint32_t`. -/
def leafNodeFlags : Nat := 3

/-- The method `InitInteriorNode(int axis, int32_t aboveChild, float split)`:
two assertions, then both words of the node are overwritten. -/
def InitInteriorNode (_self : Node) (axis : Int) (aboveChild : Int) (split : F32) : Option Node :=
  if ¬ (axis ≥ 0 ∧ axis < 3) then none
  else if ¬ (aboveChild < maxNodesCount) then none
  else some
    { word0 := toU32 axis ||| ((toU32 aboveChild <<< 2) % 4294967296)
      word1 := split.bits }

/-- The method `InitEmptyLeaf()`. -/
def InitEmptyLeaf (_self : Node) : Node :=
  { word0 := leafNodeFlags
    word1 := 0 }

/-- The method `InitLeafWithSingleTriangle(int32_t triangleIndex)`. -/
def InitLeafWithSingleTriangle (_self : Node) (triangleIndex : Int) : Node :=
  { word0 := leafNodeFlags ||| (1 <<< 2)
    word1 := toU32 triangleIndex }

/-- The method `InitLeafWithMultipleTriangles(int32_t numTriangles, int32_t triangleIndicesOffset)`:
one assertion, then both words of the node are overwritten. -/
def InitLeafWithMultipleTriangles (_self : Node) (numTriangles : Int)
    (triangleIndicesOffset : Int) : Option Node :=
  if ¬ (numTriangles > 1) then none
  else some
    { word0 := leafNodeFlags ||| ((toU32 numTriangles <<< 2) % 4294967296)
      word1 := toU32 triangleIndicesOffset }

/-- The method `IsLeaf()`. -/
def IsLeaf (n : Node) : Bool := (n.word0 &&& leafNodeFlags) == leafNodeFlags

/-- The method `IsInteriorNode()`. -/
def IsInteriorNode (n : Node) : Bool := !n.IsLeaf

/-- The method `GetTrianglesCount()`; `none` when `assert(IsLeaf())` fails. -/
def GetTrianglesCount (n : Node) : Option Int :=
  if n.IsLeaf then some (toI32 (n.word0 >>> 2)) else none

/-- The method `GetIndex()`; `none` when `assert(IsLeaf())` fails. -/
def GetIndex (n : Node) : Option Int :=
  if n.IsLeaf then some (toI32 n.word1) else none

/-- The method `GetSplitAxis()`; `none` when `assert(IsInteriorNode())` fails. -/
def GetSplitAxis (n : Node) : Option Int :=
  if n.IsInteriorNode then some (toI32 (n.word0 &&& leafNodeFlags)) else none

/-- The method `GetSplitPosition()`; `none` when `assert(IsInteriorNode())` fails. -/
def GetSplitPosition (n : Node) : Option F32 :=
  if n.IsInteriorNode then some { bits := n.word1 } else none

/-- The method `GetAboveChild()`; `none` when `assert(IsInteriorNode())` fails. -/
def GetAboveChild (n : Node) : Option Int :=
  if n.IsInteriorNode then some (toI32 (n.word0 >>> 2)) else none

end Node

/-! ## The query result -/

namespace F32

/-- The sign bit (bit 31) of the pattern. -/
def sign (f : F32) : Nat := f.bits / 2147483648 % 2

/-- The biased exponent (bits 23..30) of the pattern. -/
def exponent (f : F32) : Nat := f.bits / 8388608 % 256

/-- The fraction (bits 0..22) of the pattern. -/
def fraction (f : F32) : Nat := f.bits % 8388608

/-- The pattern is the IEEE-754 positive infinity: sign 0, exponent all ones, fraction 0. -/
def isPosInfinity (f : F32) : Prop := f.sign = 0 ∧ f.exponent = 255 ∧ f.fraction = 0

/-- The pattern is an IEEE-754 zero: exponent 0 and fraction 0. -/
def isZero (f : F32) : Prop := f.exponent = 0 ∧ f.fraction = 0

/-- The value `std::numeric_limits<float>::infinity()`. -/
def infinity : F32 := { bits := 0x7F800000 }

/-- The `float` that the literal `0.0` converts to. -/
def zero : F32 := { bits := 0 }

end F32

/-- The struct `KdTree::Intersection` with its two default member initializers. -/
structure Intersection where
  t : F32 := F32.infinity
  epsilon : F32 := F32.zero

/-! ## The tree store and its file -/

/-- Modelled from the spec: the mesh collaborator (`triangle_mesh.h` is not among the
sources), of which the codec uses only the triangle count. -/
structure TriangleMesh where
  triangleCount : Nat

/-- The two sequences owned by the class `KdTree`: `nodes` and `triangleIndices`
(`int32_t` entries). -/
structure Tree where
  nodes : List Node
  triangleIndices : List Int
deriving DecidableEq

/-- Modelled from the spec: the raw dump of a node sequence, two 32-bit cells a node
(part of the absent body of `SaveToFile`). -/
def writeNodes : List Node → List Nat
  | [] => []
  | n :: ns => n.word0 :: n.word1 :: writeNodes ns

/-- Modelled from the spec: reading `count` nodes from the front of the cells, `none` when
the cells run out (part of the absent body of the loading constructor). -/
def readNodes : Nat → List Nat → Option (List Node × List Nat)
  | 0, cells => some ([], cells)
  | count + 1, w0 :: w1 :: cells =>
    match readNodes count cells with
    | some (ns, rest) => some ({ word0 := w0, word1 := w1 } :: ns, rest)
    | none => none
  | _ + 1, _ => none

/-- Modelled from the spec: reading `count` signed 32-bit indices from the front of the
cells, `none` when the cells run out (part of the absent body of the loading constructor). -/
def readIndices : Nat → List Nat → Option (List Int × List Nat)
  | 0, cells => some ([], cells)
  | count + 1, w :: cells =>
    match readIndices count cells with
    | some (is, rest) => some (toI32 w :: is, rest)
    | none => none
  | _ + 1, [] => none

namespace Tree

/-- Modelled from the spec: `KdTree::SaveToFile` (declared in `kdtree.h`, its body is not
among the sources).  The file is a sequence of 32-bit cells: a count-prefixed raw dump of
the node sequence followed by a count-prefixed raw dump of the triangle-index sequence. -/
def SaveToFile (t : Tree) : List Nat :=
  (t.nodes.length % 4294967296) :: (writeNodes t.nodes
    ++ (t.triangleIndices.length % 4294967296) :: t.triangleIndices.map toU32)

/-- Modelled from the spec: the constructor `KdTree(fileName, mesh)` (declared in
`kdtree.h`, its body is not among the sources).  A short file, a size mismatch, a node
count above `2^30` and a triangle index outside the mesh are corrupt-file errors (`none`). -/
def fromFile (file : List Nat) (mesh : TriangleMesh) : Option Tree :=
  match file with
  | [] => none
  | nodeCount :: cells =>
    if nodeCount > 1073741824 then none
    else
      match readNodes nodeCount cells with
      | none => none
      | some (nodes, cells1) =>
        match cells1 with
        | [] => none
        | indexCount :: cells2 =>
          match readIndices indexCount cells2 with
          | none => none
          | some (indices, rest) =>
            if rest ≠ [] then none
            else if indices.all (fun i => decide (0 ≤ i ∧ i < (mesh.triangleCount : Int))) then
              some { nodes := nodes, triangleIndices := indices }
            else none

/-- The invariants of the data model for a tree over a mesh: the words are 32-bit, the
indices are `int32_t` values that are valid triangle indices of the mesh, there are at most
`2^30` nodes, and the length of the index sequence fits its 32-bit count cell. -/
def wf (t : Tree) (mesh : TriangleMesh) : Prop :=
  (∀ n ∈ t.nodes, n.wf)
    ∧ t.nodes.length ≤ 1073741824
    ∧ t.triangleIndices.length < 4294967296
    ∧ ∀ i ∈ t.triangleIndices, isInt32 i ∧ 0 ≤ i ∧ i < (mesh.triangleCount : Int)

instance (t : Tree) (mesh : TriangleMesh) : Decidable (t.wf mesh) := by
  unfold wf
  exact inferInstance

end Tree

/-! ## Arithmetic reading of the bit operations -/

theorem and_three (w : Nat) : w &&& 3 = w % 4 :=
  Nat.and_pow_two_sub_one_eq_mod w 2

theorem shr_two (w : Nat) : w >>> 2 = w / 4 :=
  Nat.shiftRight_eq_div_pow w 2

theorem shl_two (w : Nat) : w <<< 2 = w * 4 :=
  Nat.shiftLeft_eq w 2

theorem or_shifted (a b : Nat) (ha : a < 4) : a ||| (b * 4) = b * 4 + a := by
  have h := Nat.mul_add_lt_is_or (show a < 2 ^ 2 from ha) b
  have e : b * 4 = 2 ^ 2 * b := by omega
  rw [Nat.lor_comm, e, ← h]

/-- The word `flags | (x << 2)` computed on 32 bits, for two flag bits `a`. -/
theorem pack_eq (a x : Nat) (ha : a < 4) :
    a ||| ((x <<< 2) % 4294967296) = (x % 1073741824) * 4 + a := by
  have h : (x <<< 2) % 4294967296 = (x % 1073741824) * 4 := by
    rw [shl_two]
    omega
  rw [h, or_shifted _ _ ha]

theorem toU32_of_nonneg (i : Int) (h0 : 0 ≤ i) (h1 : i < 4294967296) : (toU32 i : Int) = i := by
  unfold toU32
  omega

theorem toI32_toU32 (i : Int) (h : isInt32 i) : toI32 (toU32 i) = i := by
  unfold isInt32 at h
  unfold toI32 toU32
  split <;> omega

theorem toI32_of_lt (w : Nat) (h : w < 2147483648) : toI32 w = w := by
  unfold toI32
  split <;> omega

theorem isLeaf_iff (n : Node) : n.IsLeaf = true ↔ n.word0 % 4 = 3 := by
  simp [Node.IsLeaf, Node.leafNodeFlags, and_three]

theorem isLeaf_false_iff (n : Node) : n.IsLeaf = false ↔ n.word0 % 4 ≠ 3 := by
  have h := isLeaf_iff n
  cases hl : n.IsLeaf
  · simp only [hl, Bool.false_eq_true, false_iff] at h
    simpa using h
  · simp only [hl, true_iff] at h
    simp [h]

theorem toU32_axis (axis : Int) (hax : 0 ≤ axis ∧ axis < 3) :
    toU32 axis = axis.toNat ∧ axis.toNat < 3 := by
  unfold toU32
  omega

/-- The first word written by `InitInteriorNode`, read arithmetically. -/
theorem interior_word0 (axis aboveChild : Int) (hax : 0 ≤ axis ∧ axis < 3) :
    toU32 axis ||| ((toU32 aboveChild <<< 2) % 4294967296)
      = (toU32 aboveChild % 1073741824) * 4 + axis.toNat := by
  obtain ⟨h1, h2⟩ := toU32_axis axis hax
  rw [h1, pack_eq _ _ (by omega)]

/-- The first word written by `InitLeafWithMultipleTriangles`, read arithmetically. -/
theorem multi_word0 (numTriangles : Int) :
    Node.leafNodeFlags ||| ((toU32 numTriangles <<< 2) % 4294967296)
      = (toU32 numTriangles % 1073741824) * 4 + 3 := by
  unfold Node.leafNodeFlags
  rw [pack_eq _ _ (by omega)]

theorem single_word0 : Node.leafNodeFlags ||| (1 <<< 2) = 7 := by
  decide

/-- On the inputs that pass both assertions `InitInteriorNode` returns the node it wrote. -/
theorem initInterior_some (self : Node) (axis aboveChild : Int) (split : F32)
    (hax : 0 ≤ axis ∧ axis < 3) (hac : aboveChild < Node.maxNodesCount) :
    Node.InitInteriorNode self axis aboveChild split
      = some ⟨(toU32 aboveChild % 1073741824) * 4 + axis.toNat, split.bits⟩ := by
  unfold Node.InitInteriorNode
  rw [if_neg (by simpa using hax), if_neg (by simpa using hac), interior_word0 _ _ hax]

/-- On the inputs that pass the assertion `InitLeafWithMultipleTriangles` returns the node it wrote. -/
theorem initMulti_some (self : Node) (numTriangles off : Int) (hn : 1 < numTriangles) :
    Node.InitLeafWithMultipleTriangles self numTriangles off
      = some ⟨(toU32 numTriangles % 1073741824) * 4 + 3, toU32 off⟩ := by
  unfold Node.InitLeafWithMultipleTriangles
  rw [if_neg (by simpa using hn), multi_word0]

theorem initSingle_eq (self : Node) (triangleIndex : Int) :
    Node.InitLeafWithSingleTriangle self triangleIndex = ⟨7, toU32 triangleIndex⟩ := by
  unfold Node.InitLeafWithSingleTriangle
  rw [single_word0]

theorem isInterior_iff (n : Node) : n.IsInteriorNode = true ↔ n.word0 % 4 ≠ 3 := by
  unfold Node.IsInteriorNode
  rw [← isLeaf_false_iff]
  simp

/-- The leaf accessors on a node whose flag bits are the leaf marker. -/
theorem leaf_getters (n : Node) (h : n.word0 % 4 = 3) :
    n.GetTrianglesCount = some (toI32 (n.word0 / 4)) ∧ n.GetIndex = some (toI32 n.word1) := by
  have hl := (isLeaf_iff n).2 h
  simp [Node.GetTrianglesCount, Node.GetIndex, hl, shr_two]

/-- The interior accessors on a node whose flag bits are not the leaf marker. -/
theorem interior_getters (n : Node) (h : n.word0 % 4 ≠ 3) :
    n.GetSplitAxis = some (toI32 (n.word0 % 4)) ∧ n.GetSplitPosition = some ⟨n.word1⟩
      ∧ n.GetAboveChild = some (toI32 (n.word0 / 4)) := by
  have hl := (isInterior_iff n).2 h
  simp [Node.GetSplitAxis, Node.GetSplitPosition, Node.GetAboveChild, hl, shr_two, and_three,
    Node.leafNodeFlags]

/-! ## Round trips of the encoders -/

/-- C1: for an axis in {0,1,2}, an above-child index in [0, 2^30) and any split bit pattern,
`InitInteriorNode` succeeds and the three interior accessors succeed on its node and return
the axis, the index and the bit pattern of the split. -/
theorem interior_round_trip (self : Node) (axis aboveChild : Int) (split : F32)
    (hax : 0 ≤ axis ∧ axis < 3) (hac : 0 ≤ aboveChild ∧ aboveChild < 1073741824) :
    ∃ n, Node.InitInteriorNode self axis aboveChild split = some n
      ∧ n.GetSplitAxis = some axis
      ∧ n.GetAboveChild = some aboveChild
      ∧ n.GetSplitPosition = some split := by
  refine ⟨_, initInterior_some self axis aboveChild split hax (by unfold Node.maxNodesCount; omega), ?_⟩
  have hu := toU32_of_nonneg aboveChild hac.1 (by omega)
  obtain ⟨g1, g2, g3⟩ := interior_getters
    ⟨(toU32 aboveChild % 1073741824) * 4 + axis.toNat, split.bits⟩ (by simp only; omega)
  rw [g1, g2, g3]
  simp only [Option.some.injEq]
  refine ⟨?_, ?_, trivial⟩
  · rw [toI32_of_lt _ (by omega)]
    omega
  · rw [toI32_of_lt _ (by omega)]
    omega

theorem interior_round_trip_witness :
    ∃ n, Node.InitInteriorNode ⟨0, 0⟩ 2 5 ⟨1065353216⟩ = some n
      ∧ n.GetSplitAxis = some 2
      ∧ n.GetAboveChild = some 5
      ∧ n.GetSplitPosition = some ⟨1065353216⟩ :=
  interior_round_trip ⟨0, 0⟩ 2 5 ⟨1065353216⟩ (by decide) (by decide)

/-- C2: for a count with 1 < count < 2^30 and any `int32_t` offset,
`InitLeafWithMultipleTriangles` succeeds and on its node `GetTrianglesCount` returns the
count and `GetIndex` returns the offset. -/
theorem multi_leaf_round_trip (self : Node) (numTriangles triangleIndicesOffset : Int)
    (hn : 1 < numTriangles ∧ numTriangles < 1073741824) (hoff : isInt32 triangleIndicesOffset) :
    ∃ n, Node.InitLeafWithMultipleTriangles self numTriangles triangleIndicesOffset = some n
      ∧ n.GetTrianglesCount = some numTriangles
      ∧ n.GetIndex = some triangleIndicesOffset := by
  refine ⟨_, initMulti_some self numTriangles triangleIndicesOffset hn.1, ?_⟩
  have hu := toU32_of_nonneg numTriangles (by omega) (by omega)
  obtain ⟨g1, g2⟩ := leaf_getters
    ⟨(toU32 numTriangles % 1073741824) * 4 + 3, toU32 triangleIndicesOffset⟩ (by simp only; omega)
  rw [g1, g2]
  simp only [Option.some.injEq]
  refine ⟨?_, toI32_toU32 _ hoff⟩
  rw [toI32_of_lt _ (by omega)]
  omega

theorem multi_leaf_round_trip_witness :
    ∃ n, Node.InitLeafWithMultipleTriangles ⟨0, 0⟩ 4 (-17) = some n
      ∧ n.GetTrianglesCount = some 4
      ∧ n.GetIndex = some (-17) :=
  multi_leaf_round_trip ⟨0, 0⟩ 4 (-17) (by decide) (by decide)

/-- C3: for any `int32_t` triangle index, negative ones included, the node written by
`InitLeafWithSingleTriangle` has `word0 = 7`, and on it `GetTrianglesCount` returns 1 and
`GetIndex` returns the index. -/
theorem single_leaf_round_trip (self : Node) (triangleIndex : Int) (hi : isInt32 triangleIndex) :
    (Node.InitLeafWithSingleTriangle self triangleIndex).word0 = 7
      ∧ (Node.InitLeafWithSingleTriangle self triangleIndex).GetTrianglesCount = some 1
      ∧ (Node.InitLeafWithSingleTriangle self triangleIndex).GetIndex = some triangleIndex := by
  rw [initSingle_eq]
  obtain ⟨g1, g2⟩ := leaf_getters ⟨7, toU32 triangleIndex⟩ (by norm_num)
  rw [g1, g2]
  simp only [Option.some.injEq]
  exact ⟨trivial, by decide, toI32_toU32 _ hi⟩

theorem single_leaf_round_trip_witness :
    (Node.InitLeafWithSingleTriangle ⟨0, 0⟩ (-2147483648)).word0 = 7
      ∧ (Node.InitLeafWithSingleTriangle ⟨0, 0⟩ (-2147483648)).GetTrianglesCount = some 1
      ∧ (Node.InitLeafWithSingleTriangle ⟨0, 0⟩ (-2147483648)).GetIndex = some (-2147483648) :=
  single_leaf_round_trip ⟨0, 0⟩ (-2147483648) (by decide)

/-- C4: a node produced by `InitInteriorNode` with an axis in {0,1,2} (any above-child index
the encoder accepts, any split) is an interior node and not a leaf; the nodes produced by
`InitEmptyLeaf`, `InitLeafWithSingleTriangle` (any index) and `InitLeafWithMultipleTriangles`
(any count > 1, any offset) are leaves and not interior nodes. -/
theorem variant_tagging (self : Node) (axis aboveChild : Int) (split : F32)
    (triangleIndex numTriangles triangleIndicesOffset : Int)
    (hax : 0 ≤ axis ∧ axis < 3) (hac : aboveChild < Node.maxNodesCount)
    (hn : 1 < numTriangles) :
    (∃ n, Node.InitInteriorNode self axis aboveChild split = some n
        ∧ n.IsLeaf = false ∧ n.IsInteriorNode = true)
      ∧ ((Node.InitEmptyLeaf self).IsLeaf = true ∧ (Node.InitEmptyLeaf self).IsInteriorNode = false)
      ∧ ((Node.InitLeafWithSingleTriangle self triangleIndex).IsLeaf = true
        ∧ (Node.InitLeafWithSingleTriangle self triangleIndex).IsInteriorNode = false)
      ∧ (∃ n, Node.InitLeafWithMultipleTriangles self numTriangles triangleIndicesOffset = some n
        ∧ n.IsLeaf = true ∧ n.IsInteriorNode = false) := by
  have leafBoth : ∀ n : Node, n.word0 % 4 = 3 → n.IsLeaf = true ∧ n.IsInteriorNode = false := by
    intro n h
    have hl := (isLeaf_iff n).2 h
    simp [Node.IsInteriorNode, hl]
  refine ⟨⟨_, initInterior_some self axis aboveChild split hax hac, ?_, ?_⟩, ?_, ?_,
    ⟨_, initMulti_some self numTriangles triangleIndicesOffset hn, ?_⟩⟩
  · rw [isLeaf_false_iff]
    simp only
    omega
  · rw [isInterior_iff]
    simp only
    omega
  · exact leafBoth _ rfl
  · rw [initSingle_eq]
    exact leafBoth _ (by norm_num)
  · exact leafBoth _ (by simp only; omega)

theorem variant_tagging_witness :
    (∃ n, Node.InitInteriorNode ⟨7, 9⟩ 1 (-1) ⟨0⟩ = some n
        ∧ n.IsLeaf = false ∧ n.IsInteriorNode = true)
      ∧ ((Node.InitEmptyLeaf ⟨7, 9⟩).IsLeaf = true ∧ (Node.InitEmptyLeaf ⟨7, 9⟩).IsInteriorNode = false)
      ∧ ((Node.InitLeafWithSingleTriangle ⟨7, 9⟩ (-3)).IsLeaf = true
        ∧ (Node.InitLeafWithSingleTriangle ⟨7, 9⟩ (-3)).IsInteriorNode = false)
      ∧ (∃ n, Node.InitLeafWithMultipleTriangles ⟨7, 9⟩ 1073741824 0 = some n
        ∧ n.IsLeaf = true ∧ n.IsInteriorNode = false) :=
  variant_tagging ⟨7, 9⟩ 1 (-1) ⟨0⟩ (-3) 1073741824 0 (by decide) (by decide) (by decide)

/-! ## Inputs the assertions let through -/

/-- C5: the code at `axis = 0`, `aboveChild = -1`: both assertions of `InitInteriorNode` pass
(`-1 < maxNodesCount`), the shift drops the two top bits of the index and `GetAboveChild`
returns `2^30 - 1 = 1073741823`, not `-1`. -/
theorem above_child_negative_not_recovered :
    (0 ≤ (0 : Int) ∧ (0 : Int) < 3) ∧ (-1 : Int) < Node.maxNodesCount ∧ isInt32 (-1)
      ∧ Node.InitInteriorNode ⟨0, 0⟩ 0 (-1) ⟨0⟩ = some ⟨4294967292, 0⟩
      ∧ Node.GetAboveChild ⟨4294967292, 0⟩ = some 1073741823
      ∧ Node.GetAboveChild ⟨4294967292, 0⟩ ≠ some (-1) := by
  decide

/-- C6: the code at `numTriangles = 2^30 = 1073741824`: the assertion of
`InitLeafWithMultipleTriangles` passes (`2^30 > 1`), the shift drops the count entirely,
the node written is the empty leaf's `word0 = 3`, and `GetTrianglesCount` returns 0. -/
theorem multi_leaf_count_truncated :
    isInt32 1073741824 ∧ (1073741824 : Int) > 1
      ∧ Node.InitLeafWithMultipleTriangles ⟨0, 0⟩ 1073741824 0 = some ⟨3, 0⟩
      ∧ Node.GetTrianglesCount ⟨3, 0⟩ = some 0
      ∧ Node.InitLeafWithMultipleTriangles ⟨0, 0⟩ 1073741825 0 = some ⟨7, 0⟩
      ∧ Node.GetTrianglesCount ⟨7, 0⟩ = some 1 := by
  decide

/-! ## Classification of leaves -/

/-- C7: on every node of two 32-bit words with `IsLeaf() = true`, `GetTrianglesCount`
succeeds and returns an integer in [0, 2^30); exactly one of count = 0, count = 1,
count > 1 holds; count = 0 exactly when `word0 = 3`, the `word0` of `InitEmptyLeaf`, and
count = 1 exactly when `word0 = 7`, the `word0` of `InitLeafWithSingleTriangle`. -/
theorem leaf_classification (n self : Node) (triangleIndex : Int) (hw : n.wf)
    (hl : n.IsLeaf = true) :
    ∃ c, n.GetTrianglesCount = some c
      ∧ (0 ≤ c ∧ c < 1073741824)
      ∧ ((c = 0 ∧ c ≠ 1 ∧ ¬ 1 < c) ∨ (c ≠ 0 ∧ c = 1 ∧ ¬ 1 < c) ∨ (c ≠ 0 ∧ c ≠ 1 ∧ 1 < c))
      ∧ (c = 0 ↔ n.word0 = 3)
      ∧ (c = 1 ↔ n.word0 = 7)
      ∧ (Node.InitEmptyLeaf self).word0 = 3
      ∧ (Node.InitLeafWithSingleTriangle self triangleIndex).word0 = 7 := by
  have h3 := (isLeaf_iff n).1 hl
  have h0 : n.word0 < 4294967296 := hw.1
  refine ⟨_, (leaf_getters n h3).1, ?_⟩
  rw [toI32_of_lt _ (by omega)]
  refine ⟨by omega, by omega, by omega, by omega, rfl, ?_⟩
  rw [initSingle_eq]

theorem leaf_classification_witness :
    ∃ c, Node.GetTrianglesCount ⟨4294967295, 12⟩ = some c
      ∧ (0 ≤ c ∧ c < 1073741824)
      ∧ ((c = 0 ∧ c ≠ 1 ∧ ¬ 1 < c) ∨ (c ≠ 0 ∧ c = 1 ∧ ¬ 1 < c) ∨ (c ≠ 0 ∧ c ≠ 1 ∧ 1 < c))
      ∧ (c = 0 ↔ (⟨4294967295, 12⟩ : Node).word0 = 3)
      ∧ (c = 1 ↔ (⟨4294967295, 12⟩ : Node).word0 = 7)
      ∧ (Node.InitEmptyLeaf ⟨1, 2⟩).word0 = 3
      ∧ (Node.InitLeafWithSingleTriangle ⟨1, 2⟩ 5).word0 = 7 :=
  leaf_classification ⟨4294967295, 12⟩ ⟨1, 2⟩ 5 (by decide) (by decide)

/-! ## Layout of the words -/

/-- C8: for an axis in {0,1,2}, an above-child index in [0, 2^30) and any split,
`InitInteriorNode` sets `word0 = axis + 4 * aboveChild`, a 32-bit value whose bits 0..1 are
the axis and whose bits 2..31 are the index, and sets `word1` to the bit pattern of the
split unchanged. -/
theorem interior_layout (self : Node) (axis aboveChild : Int) (split : F32)
    (hax : 0 ≤ axis ∧ axis < 3) (hac : 0 ≤ aboveChild ∧ aboveChild < 1073741824) :
    ∃ n, Node.InitInteriorNode self axis aboveChild split = some n
      ∧ (n.word0 : Int) = axis + 4 * aboveChild
      ∧ n.word0 < 4294967296
      ∧ ((n.word0 % 4 : Nat) : Int) = axis
      ∧ ((n.word0 / 4 : Nat) : Int) = aboveChild
      ∧ n.word1 = split.bits := by
  refine ⟨_, initInterior_some self axis aboveChild split hax (by unfold Node.maxNodesCount; omega), ?_⟩
  have hu := toU32_of_nonneg aboveChild hac.1 (by omega)
  simp only
  refine ⟨by omega, by omega, by omega, by omega, trivial⟩

theorem interior_layout_witness :
    ∃ n, Node.InitInteriorNode ⟨0, 0⟩ 2 1073741823 ⟨3212836864⟩ = some n
      ∧ (n.word0 : Int) = 2 + 4 * 1073741823
      ∧ n.word0 < 4294967296
      ∧ ((n.word0 % 4 : Nat) : Int) = 2
      ∧ ((n.word0 / 4 : Nat) : Int) = 1073741823
      ∧ n.word1 = (⟨3212836864⟩ : F32).bits :=
  interior_layout ⟨0, 0⟩ 2 1073741823 ⟨3212836864⟩ (by decide) (by decide)

/-- C9: `InitEmptyLeaf` writes `word0 = 3` and `word1 = 0`, and `GetTrianglesCount` is 0 on
its node; for a count with 2 <= count < 2^30, `InitLeafWithMultipleTriangles` succeeds with
`word0 = 4 * count + 3`, whose two low bits are the leaf marker 3. -/
theorem leaf_layout (self : Node) (numTriangles triangleIndicesOffset : Int)
    (hn : 2 ≤ numTriangles ∧ numTriangles < 1073741824) :
    ((Node.InitEmptyLeaf self).word0 = 3 ∧ (Node.InitEmptyLeaf self).word1 = 0
        ∧ (Node.InitEmptyLeaf self).GetTrianglesCount = some 0)
      ∧ ∃ n, Node.InitLeafWithMultipleTriangles self numTriangles triangleIndicesOffset = some n
        ∧ (n.word0 : Int) = 4 * numTriangles + 3
        ∧ n.word0 &&& 3 = Node.leafNodeFlags := by
  refine ⟨⟨rfl, rfl, ?_⟩,
    ⟨_, initMulti_some self numTriangles triangleIndicesOffset (by omega), ?_, ?_⟩⟩
  · rw [(leaf_getters (Node.InitEmptyLeaf self) rfl).1]
    simp only [Node.InitEmptyLeaf, Node.leafNodeFlags]
    decide
  · have hu := toU32_of_nonneg numTriangles (by omega) (by omega)
    simp only
    omega
  · rw [and_three]
    simp only [Node.leafNodeFlags]
    omega

theorem leaf_layout_witness :
    ((Node.InitEmptyLeaf ⟨8, 8⟩).word0 = 3 ∧ (Node.InitEmptyLeaf ⟨8, 8⟩).word1 = 0
        ∧ (Node.InitEmptyLeaf ⟨8, 8⟩).GetTrianglesCount = some 0)
      ∧ ∃ n, Node.InitLeafWithMultipleTriangles ⟨8, 8⟩ 2 40 = some n
        ∧ (n.word0 : Int) = 4 * 2 + 3
        ∧ n.word0 &&& 3 = Node.leafNodeFlags :=
  leaf_layout ⟨8, 8⟩ 2 40 (by decide)

/-! ## Failure of the assertions -/

/-- C10: `InitInteriorNode` fails exactly when the axis is not one of 0, 1, 2 or the
above-child index is at least `2^30 = maxNodesCount`; on every other input it succeeds and
the node it returns has both words written, whatever the node held before. -/
theorem init_interior_fails_iff (self : Node) (axis aboveChild : Int) (split : F32) :
    (Node.InitInteriorNode self axis aboveChild split = none
        ↔ (¬ (axis = 0 ∨ axis = 1 ∨ axis = 2) ∨ 1073741824 ≤ aboveChild))
      ∧ Node.maxNodesCount = 1073741824
      ∧ (¬ (¬ (axis = 0 ∨ axis = 1 ∨ axis = 2) ∨ 1073741824 ≤ aboveChild) →
          ∃ n, Node.InitInteriorNode self axis aboveChild split = some n
            ∧ n.word0 = toU32 axis ||| ((toU32 aboveChild <<< 2) % 4294967296)
            ∧ n.word1 = split.bits
            ∧ ∀ other : Node, Node.InitInteriorNode other axis aboveChild split = some n) := by
  refine ⟨?_, rfl, ?_⟩
  · unfold Node.InitInteriorNode Node.maxNodesCount
    split
    · simp only [true_iff]
      omega
    · split
      · simp only [true_iff]
        omega
      · simp only [reduceCtorEq, false_iff]
        omega
  · intro h
    have hax : 0 ≤ axis ∧ axis < 3 := by omega
    have hac : aboveChild < Node.maxNodesCount := by unfold Node.maxNodesCount; omega
    refine ⟨_, initInterior_some self axis aboveChild split hax hac, ?_, rfl, ?_⟩
    · exact (interior_word0 axis aboveChild hax).symm
    · intro other
      exact initInterior_some other axis aboveChild split hax hac

theorem init_interior_fails_iff_witness :
    Node.InitInteriorNode ⟨0, 0⟩ 3 0 ⟨0⟩ = none
      ∧ Node.InitInteriorNode ⟨0, 0⟩ (-1) 0 ⟨0⟩ = none
      ∧ Node.InitInteriorNode ⟨0, 0⟩ 0 1073741824 ⟨0⟩ = none
      ∧ ∃ n, Node.InitInteriorNode ⟨0, 0⟩ 2 1073741823 ⟨7⟩ = some n
        ∧ n.word0 = toU32 2 ||| ((toU32 1073741823 <<< 2) % 4294967296)
        ∧ n.word1 = (⟨7⟩ : F32).bits
        ∧ ∀ other : Node, Node.InitInteriorNode other 2 1073741823 ⟨7⟩ = some n :=
  ⟨(init_interior_fails_iff ⟨0, 0⟩ 3 0 ⟨0⟩).1.2 (by decide),
   (init_interior_fails_iff ⟨0, 0⟩ (-1) 0 ⟨0⟩).1.2 (by decide),
   (init_interior_fails_iff ⟨0, 0⟩ 0 1073741824 ⟨0⟩).1.2 (by decide),
   (init_interior_fails_iff ⟨0, 0⟩ 2 1073741823 ⟨7⟩).2.2 (by decide)⟩

/-- C11: `InitLeafWithMultipleTriangles` fails exactly when `numTriangles <= 1`: the counts
0 and 1 and every negative count are rejected, and every count above 1 yields a node. -/
theorem init_multi_fails_iff (self : Node) (numTriangles triangleIndicesOffset : Int) :
    (Node.InitLeafWithMultipleTriangles self numTriangles triangleIndicesOffset = none
        ↔ numTriangles ≤ 1)
      ∧ Node.InitLeafWithMultipleTriangles self 0 triangleIndicesOffset = none
      ∧ Node.InitLeafWithMultipleTriangles self 1 triangleIndicesOffset = none
      ∧ (numTriangles < 0 →
          Node.InitLeafWithMultipleTriangles self numTriangles triangleIndicesOffset = none)
      ∧ (1 < numTriangles →
          ∃ n, Node.InitLeafWithMultipleTriangles self numTriangles triangleIndicesOffset = some n) := by
  have key : ∀ k : Int,
      (Node.InitLeafWithMultipleTriangles self k triangleIndicesOffset = none ↔ k ≤ 1) := by
    intro k
    unfold Node.InitLeafWithMultipleTriangles
    split
    · simp only [true_iff]
      omega
    · simp only [reduceCtorEq, false_iff]
      omega
  refine ⟨key numTriangles, (key 0).2 (by decide), (key 1).2 (by decide), ?_, ?_⟩
  · intro h
    exact (key numTriangles).2 (by omega)
  · intro h
    exact ⟨_, initMulti_some self numTriangles triangleIndicesOffset h⟩

theorem init_multi_fails_iff_witness :
    Node.InitLeafWithMultipleTriangles ⟨0, 0⟩ (-5) 3 = none
      ∧ Node.InitLeafWithMultipleTriangles ⟨0, 0⟩ 1 3 = none
      ∧ ∃ n, Node.InitLeafWithMultipleTriangles ⟨0, 0⟩ 2 3 = some n :=
  ⟨(init_multi_fails_iff ⟨0, 0⟩ (-5) 3).2.2.2.1 (by decide),
   (init_multi_fails_iff ⟨0, 0⟩ 1 3).1.2 (by decide),
   (init_multi_fails_iff ⟨0, 0⟩ 2 3).2.2.2.2 (by decide)⟩

/-- C12: on every node the interior accessors `GetSplitAxis`, `GetSplitPosition` and
`GetAboveChild` fail exactly when `IsLeaf()` is true, the leaf accessors `GetTrianglesCount`
and `GetIndex` fail exactly when `IsLeaf()` is false, so exactly one of the two groups
returns a value. -/
theorem accessor_variant_checks (n : Node) :
    ((n.GetSplitAxis = none ↔ n.IsLeaf = true)
        ∧ (n.GetSplitPosition = none ↔ n.IsLeaf = true)
        ∧ (n.GetAboveChild = none ↔ n.IsLeaf = true))
      ∧ ((n.GetTrianglesCount = none ↔ n.IsLeaf = false)
        ∧ (n.GetIndex = none ↔ n.IsLeaf = false))
      ∧ ((n.GetSplitAxis.isSome = true ∧ n.GetSplitPosition.isSome = true
            ∧ n.GetAboveChild.isSome = true
            ∧ n.GetTrianglesCount = none ∧ n.GetIndex = none)
        ∨ (n.GetSplitAxis = none ∧ n.GetSplitPosition = none ∧ n.GetAboveChild = none
            ∧ n.GetTrianglesCount.isSome = true ∧ n.GetIndex.isSome = true)) := by
  cases hl : n.IsLeaf <;>
    simp [Node.GetSplitAxis, Node.GetSplitPosition, Node.GetAboveChild,
      Node.GetTrianglesCount, Node.GetIndex, Node.IsInteriorNode, hl]

/-! ## Decoding arbitrary words -/

theorem toU32_toI32 (w : Nat) (h : w < 4294967296) : toU32 (toI32 w) = w := by
  unfold toU32 toI32
  split <;> omega

/-- C16: `IsLeaf()` is true exactly when `word0 mod 4 = 3`; it does not change when `word1`
or the bits 2..31 of `word0` change; and on every node with `IsLeaf()` false `GetSplitAxis`
returns 0, 1 or 2. -/
theorem isLeaf_flag_bits_only (n : Node) (hi w1 : Nat) :
    (n.IsLeaf = true ↔ n.word0 % 4 = 3)
      ∧ Node.IsLeaf ⟨n.word0 % 4 + 4 * hi, w1⟩ = n.IsLeaf
      ∧ (n.IsLeaf = false →
          ∃ a, n.GetSplitAxis = some a ∧ (a = 0 ∨ a = 1 ∨ a = 2)) := by
  refine ⟨isLeaf_iff n, ?_, ?_⟩
  · cases hl : n.IsLeaf
    · have h := (isLeaf_false_iff n).1 hl
      rw [isLeaf_false_iff]
      simp only
      omega
    · have h := (isLeaf_iff n).1 hl
      rw [isLeaf_iff]
      simp only
      omega
  · intro hl
    have h := (isLeaf_false_iff n).1 hl
    refine ⟨_, (interior_getters n h).1, ?_⟩
    rw [toI32_of_lt _ (by omega)]
    omega

theorem isLeaf_flag_bits_only_witness :
    (Node.IsLeaf ⟨4294967294, 77⟩ = true ↔ (⟨4294967294, 77⟩ : Node).word0 % 4 = 3)
      ∧ Node.IsLeaf ⟨(⟨4294967294, 77⟩ : Node).word0 % 4 + 4 * 5, 0⟩ = Node.IsLeaf ⟨4294967294, 77⟩
      ∧ ∃ a, Node.GetSplitAxis ⟨4294967294, 77⟩ = some a ∧ (a = 0 ∨ a = 1 ∨ a = 2) :=
  ⟨(isLeaf_flag_bits_only ⟨4294967294, 77⟩ 5 0).1,
   (isLeaf_flag_bits_only ⟨4294967294, 77⟩ 5 0).2.1,
   (isLeaf_flag_bits_only ⟨4294967294, 77⟩ 5 0).2.2 (by decide)⟩

/-- C17: on every node of two 32-bit words with `IsLeaf()` false the three interior
accessors succeed, the axis read is 0, 1 or 2, the above-child index read is in [0, 2^30),
and `InitInteriorNode` on the three values read succeeds and writes the same two words. -/
theorem interior_decode_encode (n self : Node) (hw : n.wf) (hl : n.IsLeaf = false) :
    ∃ a c s, n.GetSplitAxis = some a ∧ n.GetAboveChild = some c ∧ n.GetSplitPosition = some s
      ∧ (a = 0 ∨ a = 1 ∨ a = 2)
      ∧ (0 ≤ c ∧ c < 1073741824)
      ∧ Node.InitInteriorNode self a c s = some n := by
  have h := (isLeaf_false_iff n).1 hl
  have h0 : n.word0 < 4294967296 := hw.1
  obtain ⟨g1, g2, g3⟩ := interior_getters n h
  refine ⟨_, _, _, g1, g3, g2, ?_⟩
  rw [toI32_of_lt (n.word0 % 4) (by omega), toI32_of_lt (n.word0 / 4) (by omega)]
  refine ⟨by omega, by omega, ?_⟩
  rw [initInterior_some self _ _ _ (by omega) (by unfold Node.maxNodesCount; omega)]
  have e : toU32 ((n.word0 / 4 : Nat) : Int) = n.word0 / 4 := by
    unfold toU32
    omega
  rw [e]
  have e2 : n.word0 / 4 % 1073741824 * 4 + ((n.word0 % 4 : Nat) : Int).toNat = n.word0 := by
    omega
  rw [e2]

theorem interior_decode_encode_witness :
    ∃ a c s, Node.GetSplitAxis ⟨4294967294, 3212836864⟩ = some a
      ∧ Node.GetAboveChild ⟨4294967294, 3212836864⟩ = some c
      ∧ Node.GetSplitPosition ⟨4294967294, 3212836864⟩ = some s
      ∧ (a = 0 ∨ a = 1 ∨ a = 2)
      ∧ (0 ≤ c ∧ c < 1073741824)
      ∧ Node.InitInteriorNode ⟨1, 1⟩ a c s = some ⟨4294967294, 3212836864⟩ :=
  interior_decode_encode ⟨4294967294, 3212836864⟩ ⟨1, 1⟩ (by decide) (by decide)

/-- C18: on every node of two 32-bit words with `IsLeaf()` true both leaf accessors succeed;
when the count read is 1, `InitLeafWithSingleTriangle` on the index read writes the same two
words; when the count read is above 1, `InitLeafWithMultipleTriangles` on the count and
index read passes its assertion and writes the same two words; when the count read is 0,
`InitEmptyLeaf` writes the same two words exactly when `word1 = 0`. -/
theorem leaf_decode_encode (n self : Node) (hw : n.wf) (hl : n.IsLeaf = true) :
    ∃ c i, n.GetTrianglesCount = some c ∧ n.GetIndex = some i
      ∧ (c = 1 → Node.InitLeafWithSingleTriangle self i = n)
      ∧ (1 < c → Node.InitLeafWithMultipleTriangles self c i = some n)
      ∧ (c = 0 → (Node.InitEmptyLeaf self = n ↔ n.word1 = 0)) := by
  have h := (isLeaf_iff n).1 hl
  obtain ⟨h0, h1⟩ : n.word0 < 4294967296 ∧ n.word1 < 4294967296 := hw
  obtain ⟨g1, g2⟩ := leaf_getters n h
  refine ⟨_, _, g1, g2, ?_⟩
  rw [toI32_of_lt (n.word0 / 4) (by omega)]
  obtain ⟨w0, w1⟩ := n
  simp only at h h0 h1 ⊢
  refine ⟨?_, ?_, ?_⟩
  · intro hc
    rw [initSingle_eq, toU32_toI32 _ h1]
    have e : w0 = 7 := by omega
    rw [e]
  · intro hc
    rw [initMulti_some self _ _ hc, toU32_toI32 _ h1]
    have e : toU32 ((w0 / 4 : Nat) : Int) = w0 / 4 := by
      unfold toU32
      omega
    have e2 : w0 / 4 % 1073741824 * 4 + 3 = w0 := by omega
    rw [e, e2]
  · intro hc
    have e : w0 = 3 := by omega
    simp [Node.InitEmptyLeaf, Node.leafNodeFlags, e, eq_comm]

theorem leaf_decode_encode_witness :
    ∃ c i, Node.GetTrianglesCount ⟨4294967295, 4294967295⟩ = some c
      ∧ Node.GetIndex ⟨4294967295, 4294967295⟩ = some i
      ∧ (c = 1 → Node.InitLeafWithSingleTriangle ⟨0, 0⟩ i = ⟨4294967295, 4294967295⟩)
      ∧ (1 < c → Node.InitLeafWithMultipleTriangles ⟨0, 0⟩ c i = some ⟨4294967295, 4294967295⟩)
      ∧ (c = 0 → (Node.InitEmptyLeaf ⟨0, 0⟩ = ⟨4294967295, 4294967295⟩
          ↔ (⟨4294967295, 4294967295⟩ : Node).word1 = 0)) :=
  leaf_decode_encode ⟨4294967295, 4294967295⟩ ⟨0, 0⟩ (by decide) (by decide)

/-! ## The query result and the file -/

/-- C13: a default-constructed `Intersection` has `t` equal to positive infinity (the value
of `numeric_limits<float>::infinity()`, sign 0, exponent 255, fraction 0) and `epsilon`
equal to zero (all bits 0). -/
theorem intersection_default_no_hit :
    ({} : Intersection).t = F32.infinity
      ∧ ({} : Intersection).t.isPosInfinity
      ∧ ({} : Intersection).epsilon.isZero
      ∧ ({} : Intersection).epsilon.bits = 0 := by
  refine ⟨rfl, ?_, ?_, rfl⟩
  · unfold F32.isPosInfinity F32.sign F32.exponent F32.fraction
    decide
  · unfold F32.isZero F32.exponent F32.fraction
    decide

/-- Modelled loader: a saved tree of more than `2^30` nodes is refused on loading. -/
theorem fromFile_node_ceiling (t : Tree) (mesh : TriangleMesh)
    (h : 1073741824 < t.nodes.length) (h2 : t.nodes.length < 4294967296) :
    Tree.fromFile t.SaveToFile mesh = none := by
  have e1 : t.nodes.length % 4294967296 = t.nodes.length := by omega
  simp only [Tree.SaveToFile, Tree.fromFile, e1]
  rw [if_pos (by omega)]

end KdTree
